import Mathlib

/-!
Verification of the Sleep As Android integration core
(`custom_components/sleep_as_android/__init__.py`).

The Python code is shallowly embedded: Python strings are Lean `String`s,
Python `str.split('/')` / `'/'.join` / `str.replace(old, new, 1)` are given
explicit executable Lean models, Python exceptions are modelled with
`Except PyErr`, and the sensor dictionary is modelled as an association list.
-/

namespace SleepAsAndroid

/-- Python exceptions that the embedded code can raise or catch. -/
inductive PyErr where
  | keyError
  | indexError
deriving DecidableEq

/-- Model of Python `s.split('/')` on the character list, accumulating the
current segment (in reverse). -/
def splitSlashAux : List Char → List Char → List String
  | [], acc => [String.mk acc.reverse]
  | c :: rest, acc =>
    if c = '/' then String.mk acc.reverse :: splitSlashAux rest []
    else splitSlashAux rest (c :: acc)

/-- Model of Python `s.split('/')`: always returns at least one segment. -/
def splitSlash (s : String) : List String :=
  splitSlashAux s.data []

/-- Model of Python `'/'.join(l)`. -/
def joinSlash : List String → String
  | [] => ""
  | [x] => x
  | x :: xs => x ++ "/" ++ joinSlash (xs)

/-- Model of Python `s.replace(old, new, 1)` on character lists: replaces the
first (leftmost) occurrence of `old`, scanning the whole string, and returns
the string unchanged when `old` never occurs. -/
def replace1 : List Char → List Char → List Char → List Char
  | [], old, new => if old = [] then new else []
  | c :: rest, old, new =>
    if old.isPrefixOf (c :: rest) then new ++ (c :: rest).drop old.length
    else c :: replace1 rest old new

/-- Model of Python `s.replace(old, new, 1)` on strings. -/
def pyReplaceFirst (s old new : String) : String :=
  String.mk (replace1 s.data old.data new.data)

/-- Decides whether `pat` occurs as a contiguous sublist of `s`. -/
def containsSub : List Char → List Char → Bool
  | [], pat => pat.isPrefixOf []
  | c :: rest, pat => pat.isPrefixOf (c :: rest) || containsSub rest pat

/-- Decides whether `pat` occurs in `s` strictly after position 0
(an "internal" occurrence). -/
def hasInternalOccurrence : List Char → List Char → Bool
  | [], _ => false
  | _ :: rest, pat => containsSub rest pat

/-- Modelled from the spec: the placeholder token DEVICE_MACRO is imported
from the integration's `const` module, which is not among the given sources;
the spec fixes it as the reserved literal segment "{device}". -/
def DEVICE_MACRO : String := "{device}"

/-- Loop body of `device_position_in_topic`: `result = 0`, then for each
segment `p`, `break` when `p == DEVICE_MACRO`, else `result += 1`. -/
def posAux : List String → Nat
  | [] => 0
  | p :: rest => if p = DEVICE_MACRO then 0 else posAux rest + 1

/-- `SleepAsAndroidInstance.device_position_in_topic`: position of
DEVICE_MACRO in the configured MQTT topic. -/
def device_position_in_topic (configured_topic : String) : Nat :=
  posAux (splitSlash configured_topic)

/-- `SleepAsAndroidInstance.device_name_from_topic_and_position`:
`result = "unknown_device"`, then `result = topic.split('/')[position]`
inside `try ... except KeyError: pass`.  Python list indexing raises
`IndexError` (not `KeyError`) when out of range, so only a `KeyError`
would be converted into `"unknown_device"`; an `IndexError` propagates. -/
def device_name_from_topic_and_position (topic : String) (position : Nat) :
    Except PyErr String :=
  let s := splitSlash topic
  let body : Except PyErr String :=
    match s[position]? with
    | some v => Except.ok v
    | none => Except.error PyErr.indexError
  match body with
  | Except.ok v => Except.ok v
  | Except.error PyErr.keyError => Except.ok "unknown_device"
  | Except.error e => Except.error e

/-- `SleepAsAndroidInstance.topic_template`: splits the configured topic,
assigns `'+'` at `device_position_in_topic`, and joins.  Python list
assignment raises `IndexError` when the index is out of range. -/
def topic_template (configured_topic : String) : Except PyErr String :=
  let splitted := splitSlash configured_topic
  let pos := device_position_in_topic configured_topic
  if pos < splitted.length then Except.ok (joinSlash (splitted.set pos "+"))
  else Except.error PyErr.indexError

/-- `SleepAsAndroidInstance.create_entity_id`:
`self.name + "_" + device_name`. -/
def create_entity_id (name device_name : String) : String :=
  name ++ "_" ++ device_name

/-- `SleepAsAndroidInstance.device_name_from_entity_id`:
`entity_id.replace(self.name + "_", "", 1)`. -/
def device_name_from_entity_id (name entity_id : String) : String :=
  pyReplaceFirst entity_id (name ++ "_") ""

example : splitSlash "home/phone1/state" = ["home", "phone1", "state"] := by decide
example : splitSlash "" = [""] := by decide
example : device_position_in_topic "home/{device}/state" = 1 := by decide
example : device_position_in_topic "a/b" = 2 := by decide
example : topic_template "home/{device}/state" = Except.ok "home/+/state" := rfl
example : topic_template "a/b" = Except.error PyErr.indexError := rfl
example : device_name_from_topic_and_position "a" 1 = Except.error PyErr.indexError := rfl
example : device_name_from_topic_and_position "home/phone1/state" 1 = Except.ok "phone1" := rfl
example : device_name_from_entity_id "n" "n_phone1" = "phone1" := by decide
example : device_name_from_entity_id "n" "xn_y" = "xy" := by decide

/-- Modelled from the spec (the `sensor` module is not among the given
sources): a sensor handle is constructed bound to its device identity;
only that binding is relevant to the registry claims. -/
structure SleepAsAndroidSensor where
  device_name : String
deriving DecidableEq

/-- The `SleepAsAndroidInstance.__sensors` dictionary, as an association
list from device name to sensor. -/
abbrev Registry := List (String × SleepAsAndroidSensor)

/-- Python dict lookup `self.__sensors[sensor_name]` (`none` models the
`KeyError` branch). -/
def regFind : Registry → String → Option SleepAsAndroidSensor
  | [], _ => none
  | (k, s) :: rest, d => if k = d then some s else regFind rest d

/-- `SleepAsAndroidInstance.get_sensor`: return the stored sensor with
`False`, or create, store and return a new sensor with `True`. -/
def get_sensor (sensors : Registry) (sensor_name : String) :
    (SleepAsAndroidSensor × Bool) × Registry :=
  match regFind sensors sensor_name with
  | some s => ((s, false), sensors)
  | none =>
    let new_sensor : SleepAsAndroidSensor := ⟨sensor_name⟩
    ((new_sensor, true), (sensor_name, new_sensor) :: sensors)

/-- Registry invariant: every stored sensor is bound to its own key.
Holds for every registry reachable from the empty dictionary. -/
def RegistryWF (sensors : Registry) : Prop :=
  ∀ p ∈ sensors, (p.2).device_name = p.1

instance (sensors : Registry) : Decidable (RegistryWF sensors) := by
  unfold RegistryWF
  infer_instance

/-- Folds `get_sensor` over a list of device names, collecting the returned
handles; used to state the distinct-identities claim. -/
def get_sensors_list (sensors : Registry) : List String → List SleepAsAndroidSensor × Registry
  | [] => ([], sensors)
  | d :: ds =>
    let r1 := get_sensor sensors d
    let rest := get_sensors_list r1.2 ds
    (r1.1.1 :: rest.1, rest.2)

/-- An incoming MQTT message as seen by the callback. -/
structure MQTTMessage where
  topic : String
  payload : String
deriving DecidableEq

/-- Observable interactions of `message_received` with its collaborators:
`async_add_entities([sensor], True)` and `sensor.process_message(msg)`. -/
inductive Event where
  | announce (sensor : SleepAsAndroidSensor)
  | forward (sensor : SleepAsAndroidSensor) (payload : String)
deriving DecidableEq

/-- The `message_received` callback registered by `subscribe_root_topic`:
extract the device name from the topic (which can raise, see
`device_name_from_topic_and_position`), get or create the sensor, announce
it when newly created, then forward the message.  The
`NoEntitySpecifiedError` swallowed around `process_message` does not change
the emitted interactions. -/
def message_received (position : Nat) (sensors : Registry) (msg : MQTTMessage) :
    Except PyErr (List Event × Registry) :=
  match device_name_from_topic_and_position msg.topic position with
  | Except.error e => Except.error e
  | Except.ok device_name =>
    let res := get_sensor sensors device_name
    let events :=
      (if res.1.2 then [Event.announce res.1.1] else []) ++
        [Event.forward res.1.1 msg.payload]
    Except.ok (events, res.2)

/-- Runs the callback over a sequence of messages; a message whose handling
raises leaves the registry unchanged and emits no interaction (the
exception propagates to the messaging framework). -/
def run_messages (position : Nat) (sensors : Registry) :
    List MQTTMessage → List Event × Registry
  | [] => ([], sensors)
  | m :: ms =>
    match message_received position sensors m with
    | Except.error _ => run_messages position sensors ms
    | Except.ok (events, sensors2) =>
      let rest := run_messages position sensors2 ms
      (events ++ rest.1, rest.2)

/-- The device identities successfully extracted from a message sequence. -/
def extracted_ids (position : Nat) (msgs : List MQTTMessage) : List String :=
  msgs.filterMap (fun m => (device_name_from_topic_and_position m.topic position).toOption)

/-- The device identity an interaction concerns. -/
def event_device : Event → String
  | Event.announce s => s.device_name
  | Event.forward s _ => s.device_name

/-- Whether an interaction is a `process_message` forwarding. -/
def is_forward : Event → Bool
  | Event.forward _ _ => true
  | _ => false

/-- The sub-trace of interactions concerning device identity `d`. -/
def device_trace (d : String) (events : List Event) : List Event :=
  events.filter (fun e => event_device e = d)

/-- The optional fields a config entry's `options` (or `data`) dictionary
may carry; `none` models an absent key (`KeyError` on access). -/
structure ConfigOptions where
  name : Option String
  qos : Option Nat
  topic_template : Option String
  root_topic : Option String
  topic : Option String
deriving DecidableEq

/-- A config entry: `options` overriding `data`. -/
structure ConfigEntryModel where
  options : ConfigOptions
  data_ : ConfigOptions
deriving DecidableEq

/-- `SleepAsAndroidInstance.get_from_config`: try `options[name]`, on
`KeyError` fall back to `data[name]`; `none` models the `KeyError` that
propagates when both are absent. -/
def get_from_config (ce : ConfigEntryModel) (f : ConfigOptions → Option String) :
    Option String :=
  match f ce.options with
  | some v => some v
  | none => f ce.data_

/-- `self._name`, set in `__init__`: `get_from_config('name')`, with
`'SleepAsAndroid'` on `KeyError`. -/
def instance_name (ce : ConfigEntryModel) : String :=
  match get_from_config ce ConfigOptions.name with
  | some n => n
  | none => "SleepAsAndroid"

/-- `SleepAsAndroidInstance.configured_topic`: `topic_template` from the
configuration, else the warned-about default. -/
def configured_topic (ce : ConfigEntryModel) : String :=
  match get_from_config ce ConfigOptions.topic_template with
  | some t => t
  | none => "SleepAsAndroid/" ++ DEVICE_MACRO

/-- The new options dictionary written by migration. -/
structure NewOptions where
  name : String
  qos : Nat
  topic_template : String
deriving DecidableEq

/-- `SleepAsAndroidInstance.self_update`: the migration routine.  The first
`try` builds `{'name': old['name'], 'qos': old['qos']}`; a `KeyError` on
either key falls back to `{'name': self._name, 'qos': 0}`.  The topic is
then resolved with precedence `root_topic` (v1.2.4), `topic` (v1.1.0),
else `self.configured_topic`. -/
def self_update (ce : ConfigEntryModel) : NewOptions :=
  let old_options := ce.options
  let nq : String × Nat :=
    match old_options.name, old_options.qos with
    | some n, some q => (n, q)
    | _, _ => (instance_name ce, 0)
  let new_topic : String :=
    match old_options.root_topic with
    | some topic => topic ++ "/" ++ DEVICE_MACRO
    | none =>
      match old_options.topic with
      | some topic => joinSlash ((splitSlash topic).dropLast) ++ "/" ++ DEVICE_MACRO
      | none => configured_topic ce
  { name := nq.1, qos := nq.2, topic_template := new_topic }

example :
    self_update
      { options := { name := some "bed", qos := none, topic_template := none,
                     root_topic := some "home", topic := none },
        data_ := { name := none, qos := none, topic_template := none,
                   root_topic := none, topic := none } } =
      { name := "bed", qos := 0, topic_template := "home/{device}" } := by decide

example :
    self_update
      { options := { name := none, qos := none, topic_template := none,
                     root_topic := none, topic := some "home/bedroom/state" },
        data_ := { name := none, qos := none, topic_template := none,
                   root_topic := none, topic := none } } =
      { name := "SleepAsAndroid", qos := 0, topic_template := "home/bedroom/{device}" } := by decide

/-- The scan loop returns the index of the first segment equal to
DEVICE_MACRO. -/
theorem posAux_eq_of_first (segs : List String) :
    ∀ i : Nat, segs[i]? = some DEVICE_MACRO →
      (∀ j, j < i → segs[j]? ≠ some DEVICE_MACRO) → posAux segs = i := by
  induction segs with
  | nil => intro i hi _; simp at hi
  | cons p rest ih =>
    intro i hi hj
    cases i with
    | zero =>
      simp only [List.getElem?_cons_zero, Option.some.injEq] at hi
      simp [posAux, hi]
    | succ n =>
      have hp : p ≠ DEVICE_MACRO := by
        intro hcontra
        exact hj 0 (Nat.succ_pos n) (by simp [hcontra])
      simp only [List.getElem?_cons_succ] at hi
      have hrest : posAux rest = n :=
        ih n hi (fun j hjn h => hj (j + 1) (Nat.succ_lt_succ hjn) (by simpa using h))
      simp [posAux, hp, hrest]

/-- When no segment equals DEVICE_MACRO the scan loop runs to the end and
returns the number of segments. -/
theorem posAux_eq_length (segs : List String)
    (h : ∀ s ∈ segs, s ≠ DEVICE_MACRO) : posAux segs = segs.length := by
  induction segs with
  | nil => rfl
  | cons p rest ih =>
    have hp : p ≠ DEVICE_MACRO := h p (List.mem_cons_self p rest)
    have hrest := ih (fun s hs => h s (List.mem_cons_of_mem p hs))
    simp [posAux, hp, hrest]

/-- C1: the claim says extraction returns the segment at the placeholder
index and falls back to "unknown_device" for short topics, never raising.
The code is wrong: it catches `KeyError`, but Python list indexing raises
`IndexError`, so a topic with too few segments makes the callback raise.
This theorem evaluates the embedded code at the failing input
(topic "a", index 1) and at a well-formed input. -/
theorem C1_extraction_raises :
    device_name_from_topic_and_position "a" 1 = Except.error PyErr.indexError ∧
    device_name_from_topic_and_position "home/phone1/state" 1 = Except.ok "phone1" :=
  ⟨rfl, rfl⟩

/-- C2 counterexample: for the configured topic "a/b" no segment equals
DEVICE_MACRO, yet the derived placeholder index is 2 (the segment count),
not 0, and deriving the wildcard topic raises `IndexError` instead of
replacing segment 0. -/
theorem C2_counterexample :
    (∀ s ∈ splitSlash "a/b", s ≠ DEVICE_MACRO) ∧
    device_position_in_topic "a/b" ≠ 0 ∧
    device_position_in_topic "a/b" = 2 ∧
    topic_template "a/b" = Except.error PyErr.indexError :=
  ⟨by decide, by decide, by decide, rfl⟩

/-- C2 (amended): for every configured topic in which no segment equals the
placeholder token, the derived placeholder index equals the topic's segment
count (never 0, since a split has at least one segment), and the wildcard
derivation raises `IndexError` rather than producing a topic. -/
theorem C2_amended_no_match (t : String)
    (h : ∀ s ∈ splitSlash t, s ≠ DEVICE_MACRO) :
    device_position_in_topic t = (splitSlash t).length ∧
    topic_template t = Except.error PyErr.indexError := by
  have hpos : device_position_in_topic t = (splitSlash t).length :=
    posAux_eq_length (splitSlash t) h
  refine ⟨hpos, ?_⟩
  simp [topic_template, hpos]

/-- C2 witness. -/
theorem C2_witness :
    device_position_in_topic "a/b" = (splitSlash "a/b").length ∧
    topic_template "a/b" = Except.error PyErr.indexError :=
  C2_amended_no_match "a/b" (by decide)

/-- C3: when the configured topic's segment at index `i` equals the
placeholder token and no earlier segment does, derivation returns index
`i`, and the wildcard topic is the configured topic with exactly that one
segment replaced by `"+"`, preserving the segment count.  Both derivations
are pure functions of the configured topic, so re-deriving is
deterministic. -/
theorem C3_placeholder_derivation (t : String) (i : Nat)
    (hi : (splitSlash t)[i]? = some DEVICE_MACRO)
    (hj : ∀ j, j < i → (splitSlash t)[j]? ≠ some DEVICE_MACRO) :
    device_position_in_topic t = i ∧
    topic_template t = Except.ok (joinSlash ((splitSlash t).set i "+")) ∧
    ((splitSlash t).set i "+").length = (splitSlash t).length := by
  have hpos : device_position_in_topic t = i := posAux_eq_of_first (splitSlash t) i hi hj
  have hlt : i < (splitSlash t).length := by
    rcases List.getElem?_eq_some.1 hi with ⟨hl, _⟩
    exact hl
  refine ⟨hpos, ?_, List.length_set ..⟩
  simp [topic_template, hpos, hlt]

/-- C3 witness. -/
theorem C3_witness :
    device_position_in_topic "home/{device}/state" = 1 ∧
    topic_template "home/{device}/state" =
      Except.ok (joinSlash ((splitSlash "home/{device}/state").set 1 "+")) ∧
    ((splitSlash "home/{device}/state").set 1 "+").length =
      (splitSlash "home/{device}/state").length :=
  C3_placeholder_derivation "home/{device}/state" 1 (by decide) (by decide)

/-- A successful dictionary lookup returns a stored binding. -/
theorem regFind_mem {sensors : Registry} {d : String} {s : SleepAsAndroidSensor}
    (h : regFind sensors d = some s) : (d, s) ∈ sensors := by
  induction sensors with
  | nil => simp [regFind] at h
  | cons p rest ih =>
    obtain ⟨k, v⟩ := p
    by_cases hk : k = d
    · subst hk
      have h2 : v = s := by simpa [regFind] using h
      subst h2
      exact List.mem_cons_self _ _
    · simp only [regFind, if_neg hk] at h
      exact List.mem_cons_of_mem _ (ih h)

/-- Under the registry invariant, `get_sensor` returns a sensor bound to
the requested device name. -/
theorem get_sensor_device_name {sensors : Registry} (hwf : RegistryWF sensors)
    (d : String) : ((get_sensor sensors d).1.1).device_name = d := by
  cases hf : regFind sensors d with
  | none => simp [get_sensor, hf]
  | some s =>
    have := hwf (d, s) (regFind_mem hf)
    simpa [get_sensor, hf] using this

/-- `get_sensor` preserves the registry invariant. -/
theorem get_sensor_wf {sensors : Registry} (hwf : RegistryWF sensors)
    (d : String) : RegistryWF (get_sensor sensors d).2 := by
  cases hf : regFind sensors d with
  | some s => simpa [get_sensor, hf] using hwf
  | none =>
    unfold RegistryWF
    intro p hp
    simp only [get_sensor, hf, List.mem_cons] at hp
    rcases hp with hp | hp
    · subst hp; rfl
    · exact hwf p hp

/-- A second call with the same name finds the sensor stored by the first
call and changes nothing. -/
theorem get_sensor_idem (sensors : Registry) (d : String) :
    (get_sensor (get_sensor sensors d).2 d).1.1 = (get_sensor sensors d).1.1 ∧
    (get_sensor (get_sensor sensors d).2 d).1.2 = false ∧
    (get_sensor (get_sensor sensors d).2 d).2 = (get_sensor sensors d).2 := by
  cases hf : regFind sensors d with
  | some s => simp [get_sensor, hf]
  | none => simp [get_sensor, hf, regFind]

/-- Folding `get_sensor` over a name list returns handles carrying exactly
those names, in order. -/
theorem get_sensors_list_names (ds : List String) :
    ∀ sensors : Registry, RegistryWF sensors →
      ((get_sensors_list sensors ds).1).map SleepAsAndroidSensor.device_name = ds := by
  induction ds with
  | nil => intro r _; rfl
  | cons d ds ih =>
    intro r hwf
    simp [get_sensors_list, get_sensor_device_name hwf d, ih _ (get_sensor_wf hwf d)]

/-- C4: for every well-formed registry state, calling `get_sensor` twice
with the same device identity returns on the second call the exact handle
of the first call, with `created = false` and the registry unchanged; and
calling it with pairwise-distinct identities yields pairwise-distinct
handles. -/
theorem C4_get_sensor_idempotent (sensors : Registry) (d : String)
    (ds : List String) (hwf : RegistryWF sensors) (hds : ds.Nodup) :
    ((get_sensor (get_sensor sensors d).2 d).1.1 = (get_sensor sensors d).1.1 ∧
      (get_sensor (get_sensor sensors d).2 d).1.2 = false ∧
      (get_sensor (get_sensor sensors d).2 d).2 = (get_sensor sensors d).2) ∧
    ((get_sensors_list sensors ds).1).Nodup := by
  refine ⟨get_sensor_idem sensors d, ?_⟩
  have hmap : (((get_sensors_list sensors ds).1).map
      SleepAsAndroidSensor.device_name).Nodup := by
    rw [get_sensors_list_names ds sensors hwf]
    exact hds
  exact List.Nodup.of_map _ hmap

/-- C4 witness. -/
theorem C4_witness :
    ((get_sensor (get_sensor ([] : Registry) "phone1").2 "phone1").1.1 =
        (get_sensor ([] : Registry) "phone1").1.1 ∧
      (get_sensor (get_sensor ([] : Registry) "phone1").2 "phone1").1.2 = false ∧
      (get_sensor (get_sensor ([] : Registry) "phone1").2 "phone1").2 =
        (get_sensor ([] : Registry) "phone1").2) ∧
    ((get_sensors_list ([] : Registry) ["a", "b"]).1).Nodup :=
  C4_get_sensor_idempotent [] "phone1" ["a", "b"] (by decide) (by decide)

/-- String append concatenates the underlying character lists. -/
theorem data_append (s t : String) : (s ++ t).data = s.data ++ t.data := rfl

/-- A list is a (boolean) prefix of itself followed by anything. -/
theorem isPrefixOf_self_append (l t : List Char) : l.isPrefixOf (l ++ t) = true := by
  induction l with
  | nil => simp [List.isPrefixOf]
  | cons a as ih => simp [List.isPrefixOf, ih]

/-- Dropping the length of the left part of an append leaves the right part. -/
theorem dropAppend (l t : List Char) : (l ++ t).drop l.length = t := by
  induction l with
  | nil => rfl
  | cons a as ih =>
    rw [List.cons_append, List.length_cons, List.drop_succ_cons, ih]

/-- Replace-first on a string that starts with the pattern replaces that
leading occurrence. -/
theorem replace1_append (pat t new : List Char) (hpat : pat ≠ []) :
    replace1 (pat ++ t) pat new = new ++ t := by
  cases pat with
  | nil => exact absurd rfl hpat
  | cons p ps =>
    have hpre : (p :: ps).isPrefixOf ((p :: ps) ++ t) = true := isPrefixOf_self_append _ _
    rw [List.cons_append, replace1, if_pos (by rw [← List.cons_append]; exact hpre)]
    rw [← List.cons_append, dropAppend]

/-- Replace-first leaves a string unchanged when the pattern never occurs. -/
theorem replace1_not_contains (s pat new : List Char)
    (h : containsSub s pat = false) : replace1 s pat new = s := by
  induction s with
  | nil =>
    have hpat : pat ≠ [] := by
      intro hp
      subst hp
      simp [containsSub, List.isPrefixOf] at h
    simp [replace1, hpat]
  | cons c rest ih =>
    rw [containsSub, Bool.or_eq_false_iff] at h
    rw [replace1, if_neg (by simp [h.1]), ih h.2]

/-- Replace-first removes exactly the first occurrence of the pattern: when
the pattern occurs right after `pre` and at no position inside `pre`, the
result keeps `pre` and `suf` and substitutes only that occurrence. -/
theorem replace1_first (pat suf new : List Char) (hpat : pat ≠ []) :
    ∀ pre : List Char,
      (∀ i, i < pre.length → ¬ pat <+: ((pre ++ (pat ++ suf)).drop i)) →
      replace1 (pre ++ (pat ++ suf)) pat new = pre ++ (new ++ suf) := by
  intro pre
  induction pre with
  | nil => intro _; simpa using replace1_append pat suf new hpat
  | cons c pre ih =>
    intro hfirst
    have h0 : ¬ pat <+: (c :: (pre ++ (pat ++ suf))) := by
      simpa using hfirst 0 (by simp)
    rw [List.cons_append, replace1, if_neg (by simpa using h0)]
    rw [ih (fun i hi => by simpa using hfirst (i + 1) (Nat.succ_lt_succ hi))]
    rfl

/-- C6: generating an entity id from a device identity and then recovering
the device identity is the identity map, for identities without an internal
occurrence of `name + "_"` (in fact replace-first always removes the
leading occurrence, which is the first one). -/
theorem C6_round_trip (name d : String)
    (_h : hasInternalOccurrence d.data (name ++ "_").data = false) :
    device_name_from_entity_id name (create_entity_id name d) = d := by
  have hpat : (name ++ "_").data ≠ [] := by
    rw [data_append]
    simp
  have hdata : (name ++ "_" ++ d).data = (name ++ "_").data ++ d.data := data_append ..
  unfold device_name_from_entity_id create_entity_id pyReplaceFirst
  rw [hdata, replace1_append _ _ _ hpat]
  rfl

/-- C6 witness. -/
theorem C6_witness :
    hasInternalOccurrence "phone1".data ("n" ++ "_").data = false ∧
    device_name_from_entity_id "n" (create_entity_id "n" "phone1") = "phone1" :=
  ⟨by decide, C6_round_trip "n" "phone1" (by decide)⟩

/-- C7 counterexample: with instance name "n", the entity id "xn_y" does
not begin with the prefix "n_", yet `device_name_from_entity_id` does not
return it unchanged: Python `replace(old, new, 1)` removes the first
occurrence anywhere in the string, giving "xy". -/
theorem C7_counterexample :
    ("n" ++ "_").data.isPrefixOf "xn_y".data = false ∧
    device_name_from_entity_id "n" "xn_y" = "xy" ∧
    "xy" ≠ "xn_y" :=
  ⟨by decide, by decide, by decide⟩

/-- C7 (amended): `device_name_from_entity_id` returns the entity id
unchanged exactly when `name + "_"` occurs nowhere in it; when it occurs,
the first occurrence — wherever it appears, not only as a leading prefix —
is removed exactly once. -/
theorem C7_amended_first_occurrence (name entity_id : String) :
    (containsSub entity_id.data (name ++ "_").data = false →
      device_name_from_entity_id name entity_id = entity_id) ∧
    (∀ pre suf : String,
      entity_id = pre ++ ((name ++ "_") ++ suf) →
      (∀ i, i < pre.data.length →
        ¬ (name ++ "_").data <+: (entity_id.data.drop i)) →
      device_name_from_entity_id name entity_id = pre ++ suf) := by
  constructor
  · intro h
    unfold device_name_from_entity_id pyReplaceFirst
    rw [replace1_not_contains _ _ _ h]
  · intro pre suf heq hfirst
    have hpat : (name ++ "_").data ≠ [] := by
      rw [data_append]
      simp
    have hdata : entity_id.data = pre.data ++ ((name ++ "_").data ++ suf.data) := by
      rw [heq, data_append, data_append]
    have hf : ∀ i, i < pre.data.length →
        ¬ (name ++ "_").data <+:
          ((pre.data ++ ((name ++ "_").data ++ suf.data)).drop i) := by
      intro i hi
      have := hfirst i hi
      rwa [hdata] at this
    unfold device_name_from_entity_id pyReplaceFirst
    rw [hdata, replace1_first _ _ _ hpat pre.data hf]
    show String.mk (pre.data ++ ([] ++ suf.data)) = pre ++ suf
    rw [List.nil_append, ← data_append]

/-- C7 witness. -/
theorem C7_witness : device_name_from_entity_id "n" "xn_y" = "x" ++ "y" :=
  (C7_amended_first_occurrence "n" "xn_y").2 "x" "y" (by decide) (by decide)

/-- An options dictionary with every key absent. -/
def emptyOptions : ConfigOptions :=
  { name := none, qos := none, topic_template := none, root_topic := none,
    topic := none }

/-- C8: whenever the legacy `root_topic` field is present, migration sets
`topic_template` to `root_topic + "/" + DEVICE_MACRO`, regardless of the
other legacy fields (rule 1 takes precedence over `topic`). -/
theorem C8_root_topic_migration (ce : ConfigEntryModel) (rt : String)
    (h : ce.options.root_topic = some rt) :
    (self_update ce).topic_template = rt ++ "/" ++ DEVICE_MACRO := by
  simp [self_update, h]

/-- A legacy v1.2.4-shaped entry: `root_topic` present, and a legacy
`topic` as well to exercise the precedence. -/
def ceV124 : ConfigEntryModel :=
  { options := { name := some "bed", qos := none, topic_template := none,
                 root_topic := some "home", topic := some "a/b/c" },
    data_ := emptyOptions }

/-- C8 witness: the spec's migration scenario, with a legacy `topic` also
present to exercise the precedence. -/
theorem C8_witness : (self_update ceV124).topic_template = "home/{device}" :=
  (C8_root_topic_migration ceV124 "home" rfl).trans (by decide)

/-- C9: when `root_topic` is absent but the legacy full-topic field `topic`
is present, migration drops the topic's last segment and appends the
placeholder token as the final segment. -/
theorem C9_topic_migration (ce : ConfigEntryModel) (t : String)
    (h1 : ce.options.root_topic = none) (h2 : ce.options.topic = some t) :
    (self_update ce).topic_template =
      joinSlash ((splitSlash t).dropLast) ++ "/" ++ DEVICE_MACRO := by
  simp [self_update, h1, h2]

/-- A legacy v1.1.0-shaped entry: only the full literal `topic` present. -/
def ceV110 : ConfigEntryModel :=
  { options := { name := none, qos := none, topic_template := none,
                 root_topic := none, topic := some "home/bedroom/state" },
    data_ := emptyOptions }

/-- C9 witness: the spec's migration scenario. -/
theorem C9_witness :
    (self_update ceV110).topic_template = "home/bedroom/{device}" :=
  (C9_topic_migration ceV110 "home/bedroom/state" rfl rfl).trans (by decide)

/-- An entry whose old options carry only `qos`. -/
def ceQosOnly : ConfigEntryModel :=
  { options := { name := none, qos := some 2, topic_template := none,
                 root_topic := none, topic := none },
    data_ := emptyOptions }

/-- C10 counterexample: an old configuration with `qos` present (2) but
`name` absent does not keep its `qos`: the migration's single
`try`/`except` defaults both fields as soon as either key is missing, so
the result has `qos = 0`, not 2. -/
theorem C10_counterexample :
    ceQosOnly.options.qos = some 2 ∧
    (self_update ceQosOnly).qos = 0 ∧
    (0 : Nat) ≠ 2 :=
  ⟨rfl, by decide, by decide⟩

/-- C10 (amended): migration copies `name` and `qos` together when both
are present in the old options; when either is missing it falls back for
both, to `qos = 0` and to the session name (which `__init__` read from the
same options' `name`, else the entry data's `name`, else
"SleepAsAndroid").  In particular `name` present with `qos` absent still
keeps the name — via the session-name fallback — and gets `qos = 0`, but
`qos` present with `name` absent is reset to 0 rather than preserved. -/
theorem C10_amended_name_qos (ce : ConfigEntryModel) :
    (∀ n q, ce.options.name = some n → ce.options.qos = some q →
      (self_update ce).name = n ∧ (self_update ce).qos = q) ∧
    (∀ n, ce.options.name = some n → ce.options.qos = none →
      (self_update ce).name = n ∧ (self_update ce).qos = 0) ∧
    (ce.options.name = none →
      (self_update ce).name = instance_name ce ∧ (self_update ce).qos = 0) := by
  refine ⟨?_, ?_, ?_⟩
  · intro n q hn hq
    simp [self_update, hn, hq]
  · intro n hn hq
    have hin : instance_name ce = n := by
      simp [instance_name, get_from_config, hn]
    simp [self_update, hn, hq, hin]
  · intro hn
    cases hq : ce.options.qos with
    | none => simp [self_update, hn, hq]
    | some q => simp [self_update, hn, hq]

/-- An entry whose old options carry only `name`. -/
def ceNameOnly : ConfigEntryModel :=
  { options := { name := some "bed", qos := none, topic_template := none,
                 root_topic := none, topic := none },
    data_ := emptyOptions }

/-- C10 witness: name present, qos absent. -/
theorem C10_witness :
    (self_update ceNameOnly).name = "bed" ∧ (self_update ceNameOnly).qos = 0 :=
  (C10_amended_name_qos ceNameOnly).2.1 "bed" rfl rfl

/-- A found sensor is returned as-is with `created = false`. -/
theorem get_sensor_of_found {sensors : Registry} {d : String}
    {s : SleepAsAndroidSensor} (h : regFind sensors d = some s) :
    get_sensor sensors d = ((s, false), sensors) := by
  simp [get_sensor, h]

/-- A missing sensor is created, stored and returned with `created = true`. -/
theorem get_sensor_of_missing {sensors : Registry} {d : String}
    (h : regFind sensors d = none) :
    get_sensor sensors d = ((⟨d⟩, true), (d, ⟨d⟩) :: sensors) := by
  simp [get_sensor, h]

/-- Lookup finds a binding just stored under the same key. -/
theorem regFind_cons_self (sensors : Registry) (d : String)
    (s : SleepAsAndroidSensor) : regFind ((d, s) :: sensors) d = some s := by
  simp [regFind]

/-- `get_sensor` for one name does not change lookups of other names. -/
theorem regFind_get_sensor_other {sensors : Registry} (dn d : String)
    (h : d ≠ dn) :
    regFind (get_sensor sensors dn).2 d = regFind sensors d := by
  cases hf : regFind sensors dn with
  | some s => simp [get_sensor, hf]
  | none => simp [get_sensor, hf, regFind, Ne.symm h]

/-- Filtering a trace for one device distributes over append. -/
theorem device_trace_append (d : String) (l1 l2 : List Event) :
    device_trace d (l1 ++ l2) = device_trace d l1 ++ device_trace d l2 := by
  simp [device_trace]

/-- A message whose extraction raises emits nothing and leaves the
registry unchanged. -/
theorem run_messages_cons_error (position : Nat) (sensors : Registry)
    (m : MQTTMessage) (ms : List MQTTMessage) {e : PyErr}
    (hx : device_name_from_topic_and_position m.topic position = Except.error e) :
    run_messages position sensors (m :: ms) = run_messages position sensors ms := by
  simp [run_messages, message_received, hx]

/-- A message whose extraction yields `dn` emits the `get_sensor`-driven
events and continues with the updated registry. -/
theorem run_messages_cons_ok (position : Nat) (sensors : Registry)
    (m : MQTTMessage) (ms : List MQTTMessage) {dn : String}
    (hx : device_name_from_topic_and_position m.topic position = Except.ok dn) :
    run_messages position sensors (m :: ms) =
      (((if (get_sensor sensors dn).1.2 then
            [Event.announce (get_sensor sensors dn).1.1] else []) ++
          [Event.forward (get_sensor sensors dn).1.1 m.payload]) ++
        (run_messages position (get_sensor sensors dn).2 ms).1,
       (run_messages position (get_sensor sensors dn).2 ms).2) := by
  simp [run_messages, message_received, hx]

/-- An erroring extraction contributes no extracted identity. -/
theorem extracted_ids_cons_error (position : Nat) (m : MQTTMessage)
    (ms : List MQTTMessage) {e : PyErr}
    (hx : device_name_from_topic_and_position m.topic position = Except.error e) :
    extracted_ids position (m :: ms) = extracted_ids position ms := by
  simp [extracted_ids, hx, Except.toOption]

/-- A successful extraction contributes its identity. -/
theorem extracted_ids_cons_ok (position : Nat) (m : MQTTMessage)
    (ms : List MQTTMessage) {dn : String}
    (hx : device_name_from_topic_and_position m.topic position = Except.ok dn) :
    extracted_ids position (m :: ms) = dn :: extracted_ids position ms := by
  simp [extracted_ids, hx, Except.toOption]

/-- First component of `run_messages_cons_ok`. -/
theorem run_messages_cons_ok_fst (position : Nat) (sensors : Registry)
    (m : MQTTMessage) (ms : List MQTTMessage) {dn : String}
    (hx : device_name_from_topic_and_position m.topic position = Except.ok dn) :
    (run_messages position sensors (m :: ms)).1 =
      ((if (get_sensor sensors dn).1.2 then
          [Event.announce (get_sensor sensors dn).1.1] else []) ++
        [Event.forward (get_sensor sensors dn).1.1 m.payload]) ++
        (run_messages position (get_sensor sensors dn).2 ms).1 := by
  simp [run_messages, message_received, hx]

/-- Trace invariant for `run_messages`: over a well-formed registry, a
device already registered only ever receives `forward` events, and an
unregistered device receives exactly one `announce` — as the very first
event concerning it — iff some message extracts its identity. -/
theorem run_messages_device_trace (position : Nat) (d : String) :
    ∀ (msgs : List MQTTMessage) (sensors : Registry), RegistryWF sensors →
      ((regFind sensors d).isSome = true →
        ∀ e ∈ device_trace d (run_messages position sensors msgs).1,
          is_forward e = true) ∧
      ((regFind sensors d).isSome = false →
        (d ∈ extracted_ids position msgs →
          ∃ rest, device_trace d (run_messages position sensors msgs).1 =
            Event.announce ⟨d⟩ :: rest ∧ ∀ e ∈ rest, is_forward e = true) ∧
        (d ∉ extracted_ids position msgs →
          device_trace d (run_messages position sensors msgs).1 = [])) := by
  intro msgs
  induction msgs with
  | nil =>
    intro sensors _
    refine ⟨fun _ e he => ?_, fun _ => ⟨fun hmem => ?_, fun _ => ?_⟩⟩
    · simp [run_messages, device_trace] at he
    · simp [extracted_ids] at hmem
    · simp [run_messages, device_trace]
  | cons m ms ih =>
    intro sensors hwf
    cases hx : device_name_from_topic_and_position m.topic position with
    | error e =>
      rw [run_messages_cons_error position sensors m ms hx,
        extracted_ids_cons_error position m ms hx]
      exact ih sensors hwf
    | ok dn =>
      have hids : extracted_ids position (m :: ms) = dn :: extracted_ids position ms :=
        extracted_ids_cons_ok position m ms hx
      have hname : ((get_sensor sensors dn).1.1).device_name = dn :=
        get_sensor_device_name hwf dn
      by_cases hd : d = dn
      · subst hd
        cases hreg : regFind sensors d with
        | some s0 =>
          have hnew : (get_sensor sensors d).1.2 = false := by
            rw [get_sensor_of_found hreg]
          have hsens : (get_sensor sensors d).1.1 = s0 := by
            rw [get_sensor_of_found hreg]
          have hreg2 : (get_sensor sensors d).2 = sensors := by
            rw [get_sensor_of_found hreg]
          have hs0 : s0.device_name = d := hwf (d, s0) (regFind_mem hreg)
          have htr : device_trace d (run_messages position sensors (m :: ms)).1 =
              Event.forward s0 m.payload ::
                device_trace d (run_messages position sensors ms).1 := by
            rw [run_messages_cons_ok_fst position sensors m ms hx, hnew, hsens,
              hreg2, device_trace_append]
            simp [device_trace, event_device, hs0]
          constructor
          · intro _ e' he
            rw [htr] at he
            rcases List.mem_cons.1 he with he | he
            · rw [he]; rfl
            · exact (ih sensors hwf).1 (by rw [hreg]; rfl) e' he
          · intro habs
            simp at habs
        | none =>
          have hnew : (get_sensor sensors d).1.2 = true := by
            rw [get_sensor_of_missing hreg]
          have hsens : (get_sensor sensors d).1.1 = ⟨d⟩ := by
            rw [get_sensor_of_missing hreg]
          have hreg2 : (get_sensor sensors d).2 = (d, ⟨d⟩) :: sensors := by
            rw [get_sensor_of_missing hreg]
          have htr : device_trace d (run_messages position sensors (m :: ms)).1 =
              Event.announce ⟨d⟩ :: Event.forward ⟨d⟩ m.payload ::
                device_trace d
                  (run_messages position ((d, ⟨d⟩) :: sensors) ms).1 := by
            rw [run_messages_cons_ok_fst position sensors m ms hx, hnew, hsens,
              hreg2, device_trace_append]
            simp [device_trace, event_device]
          have hwf2 : RegistryWF ((d, ⟨d⟩) :: sensors) := by
            have := get_sensor_wf hwf d
            rwa [hreg2] at this
          have hAfter := (ih ((d, ⟨d⟩) :: sensors) hwf2).1
            (by rw [regFind_cons_self]; rfl)
          constructor
          · intro habs
            simp at habs
          · intro _
            constructor
            · intro _
              refine ⟨Event.forward ⟨d⟩ m.payload ::
                device_trace d (run_messages position ((d, ⟨d⟩) :: sensors) ms).1,
                htr, ?_⟩
              intro e' he
              rcases List.mem_cons.1 he with he | he
              · rw [he]; rfl
              · exact hAfter e' he
            · intro habs2
              rw [hids] at habs2
              exact absurd (List.mem_cons_self _ _) habs2
      · have hdn : dn ≠ d := Ne.symm hd
        have hreg' : regFind (get_sensor sensors dn).2 d = regFind sensors d :=
          regFind_get_sensor_other dn d hd
        have hwf2 : RegistryWF (get_sensor sensors dn).2 := get_sensor_wf hwf dn
        have htr : device_trace d (run_messages position sensors (m :: ms)).1 =
            device_trace d (run_messages position (get_sensor sensors dn).2 ms).1 := by
          rw [run_messages_cons_ok_fst position sensors m ms hx, device_trace_append]
          have hzero : device_trace d ((if (get_sensor sensors dn).1.2 then
              [Event.announce (get_sensor sensors dn).1.1] else []) ++
              [Event.forward (get_sensor sensors dn).1.1 m.payload]) = [] := by
            cases hb : (get_sensor sensors dn).1.2 <;>
              simp [device_trace, event_device, hname, hdn]
          rw [hzero, List.nil_append]
        have himem : d ∈ extracted_ids position (m :: ms) ↔
            d ∈ extracted_ids position ms := by
          rw [hids]
          simp [hd]
        constructor
        · intro hsome e' he
          rw [htr] at he
          exact (ih (get_sensor sensors dn).2 hwf2).1
            (by rw [hreg']; exact hsome) e' he
        · intro hnone
          constructor
          · intro hmem
            obtain ⟨rest, hr1, hr2⟩ :=
              ((ih (get_sensor sensors dn).2 hwf2).2
                (by rw [hreg']; exact hnone)).1 (himem.1 hmem)
            exact ⟨rest, by rw [htr]; exact hr1, hr2⟩
          · intro hnm
            have := ((ih (get_sensor sensors dn).2 hwf2).2
              (by rw [hreg']; exact hnone)).2 (fun hc => hnm (himem.2 hc))
            rw [htr]
            exact this

/-- C5: over any message sequence handled by the callback (starting from
the session's empty registry), each device identity is announced to
`async_add_entities` exactly once — as the very first event concerning
that identity, i.e. on its first message and before that message (or any
other) is forwarded to `process_message` — iff some message extracts that
identity; identities never seen produce no events at all. -/
theorem C5_announce_once (position : Nat) (msgs : List MQTTMessage) (d : String) :
    (d ∈ extracted_ids position msgs →
      ∃ rest, device_trace d (run_messages position [] msgs).1 =
        Event.announce ⟨d⟩ :: rest ∧ ∀ e ∈ rest, is_forward e = true) ∧
    (d ∉ extracted_ids position msgs →
      device_trace d (run_messages position [] msgs).1 = []) :=
  (run_messages_device_trace position d msgs [] (by decide)).2 rfl

/-- Two messages for the same device "phone1" under the template
"home/{device}/state" (placeholder index 1). -/
def msgsPhone1 : List MQTTMessage :=
  [{ topic := "home/phone1/state", payload := "p1" },
   { topic := "home/phone1/state", payload := "p2" }]

/-- C5 witness. -/
theorem C5_witness :
    ∃ rest, device_trace "phone1" (run_messages 1 [] msgsPhone1).1 =
      Event.announce ⟨"phone1"⟩ :: rest ∧ ∀ e ∈ rest, is_forward e = true :=
  (C5_announce_once 1 msgsPhone1 "phone1").1 (by decide)

end SleepAsAndroid
